import Mathlib

/-!
Verification of the payout engine of `app.py` (cancer-treatment payout
calculator for two insurer product lines, Samsung and KB).

The core of the program is the function `calc_payments` (app.py lines
428-444) together with the static rule tables `MAPPING_SAMSUNG` /
`MAPPING_KB` and cap catalogs `MAX_USAGE_SAMSUNG` / `MAX_USAGE_KB`, and
the per-year driver loop that threads a mutable `usage_counter` dict
through successive `calc_payments` calls and sums the yearly totals.

The embedding below follows the Python source line by line:

* the `usage_counter` dict has keys that are either a clause name
  (lifetime paid count) or a `(year, clause)` pair (within-year count);
  it is embedded as an association list over the sum type `UKey`, with
  `uget` playing `d.get(k, 0)` and `uset` playing `d[k] = v`;
* `MAPPING[ev]`, `MAX_USAGE[treaty]` and `insurance_amounts.get(t, 0)`
  are embedded through the association-list lookup `alookup`; a raw
  Python indexing `MAX_USAGE[treaty]` that can raise `KeyError` is
  embedded as `Option.bind`, so a missing key makes the whole call
  return `none`;
* Python 3's `round` rounds half to even; it is embedded as `pyRound`
  on exact rationals; for every
  rate occurring in the source tables (`1.0` and `0.5`) the float
  computation `amount * cnt * rate` is exact, so the rational model is
  faithful;
* the driver loop (app.py lines 479-495) is `runYears`; the grand-total
  accumulation of the `전체 계산하기` block (lines 501-553) is
  `grand_total`.  `runCalls` generalizes `runYears` to a sequence of
  `calc_payments` calls whose subscribed-amount dict may differ per
  call, which is the shape quantified over by the cap-monotonicity
  property.
-/

namespace CancerCalc

/-- Keys of the Python `usage_counter` dict: either a clause name
(lifetime paid count) or a `(year, clause)` pair (within-year count). -/
abbrev UKey : Type := String ⊕ (Nat × String)

/-- The `usage_counter` dict, as an association list. -/
abbrev UsageCounter : Type := List (UKey × Nat)

/-- One `(treaty, cnt, rate)` triple of a rule table. -/
abbrev Rule : Type := String × Nat × ℚ

/-- One `(treaty, amt)` pair appended to `details`. -/
abbrev LineItem : Type := String × Int

/-- The `(total, details, usage_counter)` state threaded through the
loops of `calc_payments`. -/
abbrev PState : Type := Int × List LineItem × UsageCounter

instance : DecidableEq PState := instDecidableEqProd

instance : DecidableEq (Nat × Int × List LineItem) := instDecidableEqProd

/-- Association-list lookup over string keys; embeds Python dict lookup
(`k in d` / `d[k]` / `d.get(k, default)`). -/
def alookup {α : Type} : List (String × α) → String → Option α
  | [], _ => none
  | (k, v) :: rest, s => if k = s then some v else alookup rest s

/-- `usage_counter.get(k, 0)`. -/
def uget : UsageCounter → UKey → Nat
  | [], _ => 0
  | (k, v) :: rest, s => if k = s then v else uget rest s

/-- `usage_counter[k] = v` (replace the binding if present, else append). -/
def uset : UsageCounter → UKey → Nat → UsageCounter
  | [], k, v => [(k, v)]
  | (k, w) :: rest, s, v => if k = s then (s, v) :: rest else (k, w) :: uset rest s v

/-- Python 3 `round` applied to the exact value `x / d` (for `d > 0`):
round to the nearest integer, ties going to the even integer.  `f` is
the floor of `x / d` and `r2` is `2 * d` times its fractional part, so
`r2 < d`, `d < r2` and `r2 = d` discriminate fractional part `< 1/2`,
`> 1/2` and `= 1/2`.  The theorem `pyRound_eq_floor` below restates
this through `Int.floor` on `ℚ`. -/
def pyRound (x d : ℤ) : ℤ :=
  let f := x / d
  let r2 := 2 * (x - f * d)
  if r2 < d then f
  else if d < r2 then f + 1
  else if f % 2 = 0 then f else f + 1

/-- `amt = int(round(insurance_amounts.get(treaty, 0) * cnt * rate))`
(app.py line 438): the float product `amount * cnt * rate` is the exact
rational `(amount * cnt * rate.num) / rate.den`, rounded half to even. -/
def ruleAmt (amounts : List (String × Int)) (t : String) (cnt : Nat) (rate : ℚ) : ℤ :=
  pyRound ((alookup amounts t).getD 0 * (cnt : ℤ) * rate.num) (rate.den : ℤ)

/-- The literal list on app.py line 433: the clauses paid at most once
within a single year. -/
def YEAR_EXCLUSIVE : List String :=
  ["비급여 암 주요치료비 II", "암직접치료보장", "상급종합병원 암직접치료보장"]

/-- The two counter increments executed on acceptance (app.py lines
442-443): bump the lifetime count of `t`, then the `(yr, t)` count. -/
def payOne (u : UsageCounter) (yr : Nat) (t : String) : UsageCounter :=
  let u1 := uset u (Sum.inl t) (uget u (Sum.inl t) + 1)
  uset u1 (Sum.inr (yr, t)) (uget u1 (Sum.inr (yr, t)) + 1)

/-- Body of the inner `for (treaty, cnt, rate)` loop of `calc_payments`
(app.py lines 433-443): year-exclusivity check, lifetime-cap check
(where `MAX_USAGE[treaty]` can raise `KeyError`, embedded as `none`),
amount computation and conditional emission. -/
def step (amounts : List (String × Int)) (maxUsage : List (String × Nat)) (yr : Nat)
    (st : PState) (r : Rule) : Option PState :=
  if r.1 ∈ YEAR_EXCLUSIVE ∧ 1 ≤ uget st.2.2 (Sum.inr (yr, r.1)) then some st
  else
    (alookup maxUsage r.1).bind fun mx =>
      if mx ≤ uget st.2.2 (Sum.inl r.1) then some st
      else
        if 0 < ruleAmt amounts r.1 r.2.1 r.2.2 then
          some (st.1 + ruleAmt amounts r.1 r.2.1 r.2.2,
                st.2.1 ++ [(r.1, ruleAmt amounts r.1 r.2.1 r.2.2)],
                payOne st.2.2 yr r.1)
        else some st

/-- The inner `for (treaty, cnt, rate) in MAPPING[ev]` loop. -/
def payRules (amounts : List (String × Int)) (maxUsage : List (String × Nat)) (yr : Nat) :
    List Rule → PState → Option PState
  | [], st => some st
  | r :: rs, st => (step amounts maxUsage yr st r).bind (payRules amounts maxUsage yr rs)

/-- One iteration of the outer `for ev in events` loop: `if ev and ev in
MAPPING` guards the rule application, otherwise the state is unchanged. -/
def payEvent (amounts : List (String × Int)) (maxUsage : List (String × Nat))
    (mapping : List (String × List Rule)) (yr : Nat) (st : PState) (ev : String) :
    Option PState :=
  if ev ≠ "" then
    match alookup mapping ev with
    | some rules => payRules amounts maxUsage yr rules st
    | none => some st
  else some st

/-- The outer `for ev in events` loop. -/
def payEvents (amounts : List (String × Int)) (maxUsage : List (String × Nat))
    (mapping : List (String × List Rule)) (yr : Nat) :
    List String → PState → Option PState
  | [], st => some st
  | ev :: evs, st =>
    (payEvent amounts maxUsage mapping yr st ev).bind
      (payEvents amounts maxUsage mapping yr evs)

/-- `calc_payments(events, insurance_amounts, usage_counter, MAPPING,
MAX_USAGE, year)` (app.py lines 428-444). Returns
`(total, details, usage_counter)`, or `none` if a rule references a
clause missing from `MAX_USAGE` (Python `KeyError`). -/
def calc_payments (events : List String) (insurance_amounts : List (String × Int))
    (usage_counter : UsageCounter) (mapping : List (String × List Rule))
    (maxUsage : List (String × Nat)) (yr : Nat) : Option PState :=
  payEvents insurance_amounts maxUsage mapping yr events (0, [], usage_counter)

/-- A sequence of `calc_payments` calls threading one `usage_counter`,
where each call supplies its own year, event list and subscribed-amount
dict; collects each call's `(year, total, details)`. -/
def runCalls (mapping : List (String × List Rule)) (maxUsage : List (String × Nat)) :
    List (Nat × List String × List (String × Int)) → UsageCounter →
      Option (List (Nat × Int × List LineItem) × UsageCounter)
  | [], u => some ([], u)
  | c :: rest, u =>
    (calc_payments c.2.1 c.2.2 u mapping maxUsage c.1).bind fun st =>
      (runCalls mapping maxUsage rest st.2.2).bind fun pr =>
        some ((c.1, st.1, st.2.1) :: pr.1, pr.2)

/-- The per-year driver loop of the UI (app.py lines 479-495): one
`calc_payments` call per year with a fixed subscribed-amount dict,
threading the insurer's `usage_counter`. -/
def runYears (amounts : List (String × Int)) (mapping : List (String × List Rule))
    (maxUsage : List (String × Nat)) :
    List (Nat × List String) → UsageCounter →
      Option (List (Nat × Int × List LineItem) × UsageCounter)
  | [], u => some ([], u)
  | ye :: rest, u =>
    (calc_payments ye.2 amounts u mapping maxUsage ye.1).bind fun st =>
      (runYears amounts mapping maxUsage rest st.2.2).bind fun pr =>
        some ((ye.1, st.1, st.2.1) :: pr.1, pr.2)

/-- The `grand_total_s += total_s` accumulation of the `전체 계산하기`
block (app.py lines 501-553), folded over the per-year results. -/
def grand_total : List (Nat × Int × List LineItem) → Int
  | [] => 0
  | e :: rest => e.2.1 + grand_total rest

/-- Sum of the amounts of a `details` list. -/
def sumAmts (dets : List LineItem) : Int := (dets.map Prod.snd).sum

/-- Number of line items a `details` list contains for clause `t`. -/
def countClause (t : String) (dets : List LineItem) : Nat :=
  (dets.filter (fun it => it.1 = t)).length

/-- `MAPPING_SAMSUNG` (app.py lines 353-379). -/
def MAPPING_SAMSUNG : List (String × List Rule) :=
  [("수술", [("암주요치료보장", 1, 1), ("암직접치료보장", 1, 1),
      ("상급종합병원 암직접치료보장", 1, 1)]),
   ("방사선", [("암주요치료보장", 1, 1), ("암직접치료보장", 1, 1),
      ("상급종합병원 암직접치료보장", 1, 1), ("항암방사선치료특약", 1, 1)]),
   ("항암약물", [("암주요치료보장", 1, 1), ("암직접치료보장", 1, 1),
      ("상급종합병원 암직접치료보장", 1, 1), ("항암약물치료특약", 1, 1)]),
   ("항암호르몬치료제", [("암직접치료보장", 1, 1), ("상급종합병원 암직접치료보장", 1, 1)]),
   ("중입자", [("암직접치료보장", 1, 1), ("상급종합병원 암직접치료보장", 1, 1),
      ("항암방사선치료특약", 1, 1), ("항암중입자방사선치료특약", 1, 1)]),
   ("세기조절", [("암직접치료보장", 1, 1), ("상급종합병원 암직접치료보장", 1, 1),
      ("항암방사선치료특약", 1, 1), ("프리미엄암직접치료보장", 1, 1)]),
   ("양성자", [("암직접치료보장", 1, 1), ("상급종합병원 암직접치료보장", 1, 1),
      ("항암방사선치료특약", 1, 1), ("프리미엄암직접치료보장", 1, 1)]),
   ("정위적", [("암직접치료보장", 1, 1), ("상급종합병원 암직접치료보장", 1, 1),
      ("항암방사선치료특약", 1, 1), ("프리미엄암직접치료보장", 1, 1)]),
   ("로봇수술", [("암주요치료보장", 1, 1), ("암직접치료보장", 1, 1),
      ("상급종합병원 암직접치료보장", 1, 1), ("프리미엄암직접치료보장", 1, 1),
      ("프리미엄클래스암특정치료보장", 1, 1)]),
   ("표적(급여)", [("암주요치료보장", 1, 1), ("암직접치료보장", 1, 1),
      ("상급종합병원 암직접치료보장", 1, 1), ("프리미엄암직접치료보장", 1, 1)]),
   ("표적(비급여)", [("암주요치료보장", 1, 1), ("암직접치료보장", 1, 1),
      ("상급종합병원 암직접치료보장", 1, 1), ("프리미엄암직접치료보장", 2, 1),
      ("프리미엄클래스암특정치료보장", 1, 1)]),
   ("면역(급여)", [("암주요치료보장", 1, 1), ("암직접치료보장", 1, 1),
      ("상급종합병원 암직접치료보장", 1, 1), ("프리미엄암직접치료보장", 2, 1)]),
   ("면역(비급여)", [("암주요치료보장", 1, 1), ("암직접치료보장", 1, 1),
      ("상급종합병원 암직접치료보장", 1, 1), ("프리미엄암직접치료보장", 4, 1),
      ("프리미엄클래스암특정치료보장", 2, 1)])]

/-- `MAX_USAGE_SAMSUNG` (app.py lines 387-392). -/
def MAX_USAGE_SAMSUNG : List (String × Nat) :=
  [("암주요치료보장", 50), ("갑상선·기타피부암주요치료보장", 50), ("암직접치료보장", 10),
   ("갑상선·기타피부암직접치료보장", 10), ("상급종합병원 암직접치료보장", 10),
   ("상급종합병원 갑상선·기타피부암직접치료보장", 10), ("프리미엄암직접치료보장", 80),
   ("프리미엄클래스암특정치료보장", 20), ("항암방사선치료특약", 1), ("항암약물치료특약", 1),
   ("항암중입자방사선치료특약", 1)]

/-- `MAPPING_KB` (app.py lines 397-413). -/
def MAPPING_KB : List (String × List Rule) :=
  [("수술", [("암(유사암 제외) 주요치료비", 1, 1)]),
   ("로봇수술", [("암(유사암 제외) 주요치료비", 1, 1), ("비급여 암 주요치료비 II", 1, 1)]),
   ("표적(급여)", [("암(유사암 제외) 주요치료비", 1, 1), ("항암약물치료특약", 1, 1)]),
   ("표적(비급여)", [("암(유사암 제외) 주요치료비", 1, 1), ("비급여 암 주요치료비 II", 1, 1),
      ("비급여 항암약물치료비 II", 1, 1), ("항암약물치료특약", 1, 1)]),
   ("면역(급여)", [("암(유사암 제외) 주요치료비", 1, 1), ("항암약물치료특약", 1, 1)]),
   ("면역(비급여)", [("암(유사암 제외) 주요치료비", 1, 1), ("비급여 암 주요치료비 II", 1, 1),
      ("비급여 항암약물치료비 II", 1, 1), ("항암약물치료특약", 1, 1)]),
   ("세기조절", [("암(유사암 제외) 주요치료비", 1, 1), ("항암방사선치료특약", 1, 1)]),
   ("양성자", [("암(유사암 제외) 주요치료비", 1, 1), ("항암방사선치료특약", 1, 1)]),
   ("정위적", [("암(유사암 제외) 주요치료비", 1, 1), ("항암방사선치료특약", 1, 1)]),
   ("중입자", [("암(유사암 제외) 주요치료비", 1, 1), ("비급여 암 주요치료비 II", 1, 1),
      ("항암방사선치료특약", 1, 1), ("항암중입자방사선치료특약", 1, 1)]),
   ("항암호르몬치료제", [("암(유사암 제외) 주요치료비", 1, 1)]),
   ("중환자실", [("암(유사암 제외) 주요치료비", 1, mkRat 1 2)])]

/-- `MAX_USAGE_KB` (app.py lines 419-423). -/
def MAX_USAGE_KB : List (String × Nat) :=
  [("암(유사암 제외) 주요치료비", 50), ("유사암 주요치료비", 50),
   ("비급여 암 주요치료비 II", 10), ("비급여 항암약물치료비 II", 10),
   ("항암방사선치료특약", 1), ("항암약물치료특약", 1), ("항암중입자방사선치료특약", 1)]

/-- Expected amount of the amended rounding claim at odd subscribed
amount `n` under a `(1, 0.5)` rule: `n / 2` rounded half to even. -/
def halfEven (n : ℤ) : ℤ :=
  if (n - 1) / 2 % 2 = 0 then (n - 1) / 2 else (n - 1) / 2 + 1

/-- Provenance predicate for emitted line items: positive amount,
computed by the `ruleAmt` formula from some triple of the rule table. -/
def FromTable (mapping : List (String × List Rule)) (amounts : List (String × Int))
    (it : LineItem) : Prop :=
  0 < it.2 ∧ ∃ ev rules cnt rate, alookup mapping ev = some rules ∧
    (it.1, cnt, rate) ∈ rules ∧ it.2 = ruleAmt amounts it.1 cnt rate

/-- Everything `step` can do to the loop state, relative to an item
provenance predicate `P`: `details` grows by a suffix `new` of items
satisfying `P`, `total` grows by their sum, lifetime and current-year
counts grow by exactly the number of new items of the clause, other
years' counts are untouched, lifetime counts respect their cap from
`maxUsage`, and current-year counts of year-exclusive clauses stay `≤ 1`. -/
def Evolves (maxUsage : List (String × Nat)) (yr : Nat) (P : LineItem → Prop)
    (st st' : PState) : Prop :=
  ∃ new : List LineItem,
    st'.2.1 = st.2.1 ++ new ∧
    st'.1 = st.1 + sumAmts new ∧
    (∀ it ∈ new, P it) ∧
    (∀ t, uget st'.2.2 (Sum.inl t) = uget st.2.2 (Sum.inl t) + countClause t new) ∧
    (∀ t, uget st'.2.2 (Sum.inr (yr, t)) =
      uget st.2.2 (Sum.inr (yr, t)) + countClause t new) ∧
    (∀ y t, y ≠ yr → uget st'.2.2 (Sum.inr (y, t)) = uget st.2.2 (Sum.inr (y, t))) ∧
    (∀ t k, alookup maxUsage t = some k →
      uget st.2.2 (Sum.inl t) ≤ k → uget st'.2.2 (Sum.inl t) ≤ k) ∧
    (∀ t, t ∈ YEAR_EXCLUSIVE →
      uget st.2.2 (Sum.inr (yr, t)) ≤ 1 → uget st'.2.2 (Sum.inr (yr, t)) ≤ 1)

theorem uget_uset_self (u : UsageCounter) (k : UKey) (v : Nat) :
    uget (uset u k v) k = v := by
  induction u with
  | nil => simp [uset, uget]
  | cons p rest ih =>
    obtain ⟨k1, v1⟩ := p
    by_cases h : k1 = k
    · simp [uset, uget, h]
    · simp [uset, uget, h, ih]

theorem uget_uset_ne (u : UsageCounter) (k s : UKey) (v : Nat) (h : k ≠ s) :
    uget (uset u k v) s = uget u s := by
  induction u with
  | nil => simp [uset, uget, h]
  | cons p rest ih =>
    obtain ⟨k1, v1⟩ := p
    by_cases h1 : k1 = k
    · subst h1; simp [uset, uget, h]
    · simp [uset, uget, h1, ih]

theorem uget_payOne_inl_self (u : UsageCounter) (yr : Nat) (t : String) :
    uget (payOne u yr t) (Sum.inl t) = uget u (Sum.inl t) + 1 := by
  simp only [payOne]
  rw [uget_uset_ne _ _ _ _ (by simp), uget_uset_self]

theorem uget_payOne_inl_ne (u : UsageCounter) (yr : Nat) (t s : String) (h : s ≠ t) :
    uget (payOne u yr t) (Sum.inl s) = uget u (Sum.inl s) := by
  simp only [payOne]
  rw [uget_uset_ne _ _ _ _ (by simp), uget_uset_ne _ _ _ _ (by simpa using Ne.symm h)]

theorem uget_payOne_inr_self (u : UsageCounter) (yr : Nat) (t : String) :
    uget (payOne u yr t) (Sum.inr (yr, t)) = uget u (Sum.inr (yr, t)) + 1 := by
  simp only [payOne]
  rw [uget_uset_self, uget_uset_ne _ _ _ _ (by simp)]

theorem uget_payOne_inr_ne (u : UsageCounter) (yr : Nat) (t : String) (y : Nat) (s : String)
    (h : (y, s) ≠ (yr, t)) :
    uget (payOne u yr t) (Sum.inr (y, s)) = uget u (Sum.inr (y, s)) := by
  simp only [payOne]
  rw [uget_uset_ne _ _ _ _ (by simpa using Ne.symm h), uget_uset_ne _ _ _ _ (by simp)]

theorem countClause_append (t : String) (a b : List LineItem) :
    countClause t (a ++ b) = countClause t a + countClause t b := by
  simp [countClause, List.filter_append]

theorem countClause_singleton (t s : String) (a : Int) :
    countClause t [(s, a)] = if s = t then 1 else 0 := by
  by_cases h : s = t <;> simp [countClause, List.filter, h]

theorem sumAmts_append (a b : List LineItem) :
    sumAmts (a ++ b) = sumAmts a + sumAmts b := by
  simp [sumAmts]

theorem alookup_mem {α : Type} (l : List (String × α)) (k : String) (v : α)
    (h : alookup l k = some v) : (k, v) ∈ l := by
  induction l with
  | nil => simp [alookup] at h
  | cons p rest ih =>
    obtain ⟨k1, v1⟩ := p
    by_cases h1 : k1 = k
    · subst h1
      simp [alookup] at h
      subst h
      exact List.mem_cons_self _ _
    · simp only [alookup, if_neg h1] at h
      exact List.mem_cons_of_mem _ (ih h)

theorem pyRound_zero (d : ℤ) (hd : 0 < d) : pyRound 0 d = 0 := by
  simp only [pyRound, Int.zero_ediv]
  norm_num [hd]

theorem ruleAmt_of_getD_zero (amounts : List (String × Int)) (t : String) (cnt : Nat)
    (rate : ℚ) (h : (alookup amounts t).getD 0 = 0) :
    ruleAmt amounts t cnt rate = 0 := by
  simp only [ruleAmt, h, zero_mul]
  exact pyRound_zero _ (by exact_mod_cast rate.den_pos)

theorem step_elim (amounts : List (String × Int)) (maxUsage : List (String × Nat))
    (yr : Nat) (st : PState) (r : Rule) (st' : PState)
    (h : step amounts maxUsage yr st r = some st') :
    st' = st ∨
    ∃ mx, alookup maxUsage r.1 = some mx ∧
      uget st.2.2 (Sum.inl r.1) < mx ∧
      ¬(r.1 ∈ YEAR_EXCLUSIVE ∧ 1 ≤ uget st.2.2 (Sum.inr (yr, r.1))) ∧
      0 < ruleAmt amounts r.1 r.2.1 r.2.2 ∧
      st' = (st.1 + ruleAmt amounts r.1 r.2.1 r.2.2,
             st.2.1 ++ [(r.1, ruleAmt amounts r.1 r.2.1 r.2.2)],
             payOne st.2.2 yr r.1) := by
  unfold step at h
  by_cases h1 : r.1 ∈ YEAR_EXCLUSIVE ∧ 1 ≤ uget st.2.2 (Sum.inr (yr, r.1))
  · rw [if_pos h1] at h
    exact Or.inl (Option.some.inj h).symm
  · rw [if_neg h1] at h
    cases hmx : alookup maxUsage r.1 with
    | none => rw [hmx] at h; exact Option.noConfusion h
    | some mx =>
      rw [hmx, Option.some_bind] at h
      by_cases h2 : mx ≤ uget st.2.2 (Sum.inl r.1)
      · rw [if_pos h2] at h
        exact Or.inl (Option.some.inj h).symm
      · rw [if_neg h2] at h
        by_cases h3 : 0 < ruleAmt amounts r.1 r.2.1 r.2.2
        · rw [if_pos h3] at h
          exact Or.inr ⟨mx, rfl, Nat.lt_of_not_le h2, h1, h3, (Option.some.inj h).symm⟩
        · rw [if_neg h3] at h
          exact Or.inl (Option.some.inj h).symm

theorem evolves_refl (maxUsage : List (String × Nat)) (yr : Nat) (P : LineItem → Prop)
    (st : PState) : Evolves maxUsage yr P st st := by
  refine ⟨[], by simp, by simp [sumAmts], by simp, ?_, ?_, fun _ _ _ => rfl,
    fun _ _ _ h => h, fun _ _ h => h⟩
  · intro t; simp [countClause]
  · intro t; simp [countClause]

theorem evolves_trans (maxUsage : List (String × Nat)) (yr : Nat) (P : LineItem → Prop)
    (st1 st2 st3 : PState) (h1 : Evolves maxUsage yr P st1 st2)
    (h2 : Evolves maxUsage yr P st2 st3) : Evolves maxUsage yr P st1 st3 := by
  obtain ⟨n1, hd1, ht1, hp1, hl1, hy1, ho1, hb1, hx1⟩ := h1
  obtain ⟨n2, hd2, ht2, hp2, hl2, hy2, ho2, hb2, hx2⟩ := h2
  refine ⟨n1 ++ n2, ?_, ?_, ?_, ?_, ?_, ?_, ?_, ?_⟩
  · rw [hd2, hd1, List.append_assoc]
  · rw [ht2, ht1, sumAmts_append]; ring
  · intro it hit
    rcases List.mem_append.mp hit with hm | hm
    exacts [hp1 it hm, hp2 it hm]
  · intro t; rw [hl2, hl1, countClause_append]; omega
  · intro t; rw [hy2, hy1, countClause_append]; omega
  · intro y t hy; rw [ho2 _ _ hy, ho1 _ _ hy]
  · intro t k hk hle; exact hb2 t k hk (hb1 t k hk hle)
  · intro t ht hle; exact hx2 t ht (hx1 t ht hle)

theorem evolves_mono (maxUsage : List (String × Nat)) (yr : Nat) (P Q : LineItem → Prop)
    (st st' : PState) (hpq : ∀ it, P it → Q it) (h : Evolves maxUsage yr P st st') :
    Evolves maxUsage yr Q st st' := by
  obtain ⟨n, hd, ht, hp, hl, hy, ho, hb, hx⟩ := h
  exact ⟨n, hd, ht, fun it hit => hpq it (hp it hit), hl, hy, ho, hb, hx⟩

theorem step_evolves (amounts : List (String × Int)) (maxUsage : List (String × Nat))
    (yr : Nat) (st : PState) (r : Rule) (st' : PState)
    (h : step amounts maxUsage yr st r = some st') :
    Evolves maxUsage yr
      (fun it => 0 < it.2 ∧ ∃ cnt rate, (it.1, cnt, rate) = r ∧
        it.2 = ruleAmt amounts it.1 cnt rate) st st' := by
  rcases step_elim amounts maxUsage yr st r st' h with heq | ⟨mx, hmx, hlt, hYE, hpos, heq⟩
  · subst heq; exact evolves_refl _ _ _ _
  · subst heq
    refine ⟨[(r.1, ruleAmt amounts r.1 r.2.1 r.2.2)], rfl, by simp [sumAmts], ?_, ?_, ?_,
      ?_, ?_, ?_⟩
    · intro it hit
      simp only [List.mem_singleton] at hit
      subst hit
      exact ⟨hpos, r.2.1, r.2.2, rfl, rfl⟩
    · intro t
      by_cases ht : t = r.1
      · subst ht
        rw [uget_payOne_inl_self, countClause_singleton, if_pos rfl]
      · rw [uget_payOne_inl_ne _ _ _ _ ht, countClause_singleton,
          if_neg (fun hc => ht hc.symm)]
        omega
    · intro t
      by_cases ht : t = r.1
      · subst ht
        rw [uget_payOne_inr_self, countClause_singleton, if_pos rfl]
      · rw [uget_payOne_inr_ne _ _ _ _ _ (by simp [ht]), countClause_singleton,
          if_neg (fun hc => ht hc.symm)]
        omega
    · intro y t hy
      exact uget_payOne_inr_ne _ _ _ _ _ (by simp [hy])
    · intro t k hk hle
      by_cases ht : t = r.1
      · subst ht
        rw [uget_payOne_inl_self]
        rw [hmx] at hk
        have hk' : mx = k := Option.some.inj hk
        omega
      · rw [uget_payOne_inl_ne _ _ _ _ ht]; exact hle
    · intro t ht hle
      by_cases h4 : t = r.1
      · subst h4
        rw [uget_payOne_inr_self]
        have h0 : ¬1 ≤ uget st.2.2 (Sum.inr (yr, r.1)) := fun hc => hYE ⟨ht, hc⟩
        omega
      · rw [uget_payOne_inr_ne _ _ _ _ _ (by simp [h4])]; exact hle

theorem payRules_evolves (amounts : List (String × Int)) (maxUsage : List (String × Nat))
    (yr : Nat) (rs : List Rule) (st st' : PState)
    (h : payRules amounts maxUsage yr rs st = some st') :
    Evolves maxUsage yr
      (fun it => 0 < it.2 ∧ ∃ cnt rate, (it.1, cnt, rate) ∈ rs ∧
        it.2 = ruleAmt amounts it.1 cnt rate) st st' := by
  induction rs generalizing st with
  | nil =>
    simp only [payRules] at h
    have heq := Option.some.inj h
    subst heq
    exact evolves_refl _ _ _ _
  | cons r rs ih =>
    simp only [payRules] at h
    cases hstep : step amounts maxUsage yr st r with
    | none => rw [hstep] at h; exact Option.noConfusion h
    | some st1 =>
      rw [hstep, Option.some_bind] at h
      refine evolves_trans _ _ _ _ _ _
        (evolves_mono _ _ _ _ _ _ ?_ (step_evolves amounts maxUsage yr st r st1 hstep))
        (evolves_mono _ _ _ _ _ _ ?_ (ih st1 h))
      · rintro it ⟨hpos, cnt, rate, hr, hamt⟩
        exact ⟨hpos, cnt, rate, by rw [hr]; exact List.mem_cons_self _ _, hamt⟩
      · rintro it ⟨hpos, cnt, rate, hr, hamt⟩
        exact ⟨hpos, cnt, rate, List.mem_cons_of_mem _ hr, hamt⟩

theorem payEvent_evolves (amounts : List (String × Int)) (maxUsage : List (String × Nat))
    (mapping : List (String × List Rule)) (yr : Nat) (st : PState) (ev : String)
    (st' : PState) (h : payEvent amounts maxUsage mapping yr st ev = some st') :
    Evolves maxUsage yr (FromTable mapping amounts) st st' := by
  unfold payEvent at h
  by_cases hev : ev ≠ ""
  · rw [if_pos hev] at h
    cases hl : alookup mapping ev with
    | none =>
      rw [hl] at h
      have heq := Option.some.inj h
      subst heq
      exact evolves_refl _ _ _ _
    | some rules =>
      rw [hl] at h
      refine evolves_mono _ _ _ _ _ _ ?_ (payRules_evolves amounts maxUsage yr rules st st' h)
      rintro it ⟨hpos, cnt, rate, hr, hamt⟩
      exact ⟨hpos, ev, rules, cnt, rate, hl, hr, hamt⟩
  · rw [if_neg hev] at h
    have heq := Option.some.inj h
    subst heq
    exact evolves_refl _ _ _ _

theorem payEvents_evolves (amounts : List (String × Int)) (maxUsage : List (String × Nat))
    (mapping : List (String × List Rule)) (yr : Nat) (evs : List String) (st st' : PState)
    (h : payEvents amounts maxUsage mapping yr evs st = some st') :
    Evolves maxUsage yr (FromTable mapping amounts) st st' := by
  induction evs generalizing st with
  | nil =>
    simp only [payEvents] at h
    have heq := Option.some.inj h
    subst heq
    exact evolves_refl _ _ _ _
  | cons ev evs ih =>
    simp only [payEvents] at h
    cases hev : payEvent amounts maxUsage mapping yr st ev with
    | none => rw [hev] at h; exact Option.noConfusion h
    | some st1 =>
      rw [hev, Option.some_bind] at h
      exact evolves_trans _ _ _ _ _ _
        (payEvent_evolves amounts maxUsage mapping yr st ev st1 hev) (ih st1 h)

theorem calc_payments_spec (events : List String) (amounts : List (String × Int))
    (u : UsageCounter) (mapping : List (String × List Rule)) (mu : List (String × Nat))
    (yr : Nat) (tot : Int) (dets : List LineItem) (u' : UsageCounter)
    (h : calc_payments events amounts u mapping mu yr = some (tot, dets, u')) :
    tot = sumAmts dets ∧
    (∀ it ∈ dets, FromTable mapping amounts it) ∧
    (∀ t, uget u' (Sum.inl t) = uget u (Sum.inl t) + countClause t dets) ∧
    (∀ t, uget u' (Sum.inr (yr, t)) = uget u (Sum.inr (yr, t)) + countClause t dets) ∧
    (∀ y t, y ≠ yr → uget u' (Sum.inr (y, t)) = uget u (Sum.inr (y, t))) ∧
    (∀ t k, alookup mu t = some k → uget u (Sum.inl t) ≤ k → uget u' (Sum.inl t) ≤ k) ∧
    (∀ t, t ∈ YEAR_EXCLUSIVE → uget u (Sum.inr (yr, t)) ≤ 1 →
      uget u' (Sum.inr (yr, t)) ≤ 1) := by
  obtain ⟨new, hd, ht, hp, hl, hy, ho, hb, hx⟩ :=
    payEvents_evolves amounts mu mapping yr events (0, [], u) (tot, dets, u') h
  have hdets : dets = new := hd
  subst hdets
  exact ⟨by simpa using ht, hp, hl, hy, ho, hb, hx⟩

theorem runCalls_spec (mapping : List (String × List Rule)) (mu : List (String × Nat))
    (calls : List (Nat × List String × List (String × Int))) (u : UsageCounter)
    (out : List (Nat × Int × List LineItem)) (cf : UsageCounter)
    (h : runCalls mapping mu calls u = some (out, cf)) :
    (∀ e ∈ out, e.2.1 = sumAmts e.2.2) ∧
    (∀ t, uget cf (Sum.inl t) =
      uget u (Sum.inl t) + (out.map fun e => countClause t e.2.2).sum) ∧
    (∀ t k, alookup mu t = some k → uget u (Sum.inl t) ≤ k → uget cf (Sum.inl t) ≤ k) := by
  induction calls generalizing u out cf with
  | nil =>
    simp only [runCalls] at h
    obtain ⟨h1, h2⟩ := Prod.mk.inj (Option.some.inj h)
    subst h1
    subst h2
    refine ⟨by simp, by simp, fun _ _ _ hle => hle⟩
  | cons c rest ih =>
    simp only [runCalls] at h
    cases hc : calc_payments c.2.1 c.2.2 u mapping mu c.1 with
    | none => rw [hc] at h; exact Option.noConfusion h
    | some st =>
      rw [hc, Option.some_bind] at h
      cases hr : runCalls mapping mu rest st.2.2 with
      | none => rw [hr] at h; exact Option.noConfusion h
      | some pr =>
        rw [hr, Option.some_bind] at h
        obtain ⟨h1, h2⟩ := Prod.mk.inj (Option.some.inj h)
        subst h1
        subst h2
        obtain ⟨hts, hfrom, hlc, hyc, hoc, hbc, hxc⟩ :=
          calc_payments_spec c.2.1 c.2.2 u mapping mu c.1 st.1 st.2.1 st.2.2 hc
        obtain ⟨ih1, ih2, ih3⟩ := ih st.2.2 pr.1 pr.2 hr
        refine ⟨?_, ?_, ?_⟩
        · intro e he
          rcases List.mem_cons.mp he with he | he
          · subst he; exact hts
          · exact ih1 e he
        · intro t
          have h1 := ih2 t
          have h2 := hlc t
          simp only [List.map_cons, List.sum_cons] at h1 h2 ⊢
          omega
        · intro t k hk hle
          exact ih3 t k hk (hbc t k hk hle)

theorem runCalls_yearly (mapping : List (String × List Rule)) (mu : List (String × Nat))
    (calls : List (Nat × List String × List (String × Int))) (u : UsageCounter)
    (out : List (Nat × Int × List LineItem)) (cf : UsageCounter)
    (h : runCalls mapping mu calls u = some (out, cf)) (t : String)
    (ht : t ∈ YEAR_EXCLUSIVE) (hu : ∀ y, uget u (Sum.inr (y, t)) ≤ 1) :
    (∀ e ∈ out, countClause t e.2.2 ≤ 1) ∧ (∀ y, uget cf (Sum.inr (y, t)) ≤ 1) := by
  induction calls generalizing u out cf with
  | nil =>
    simp only [runCalls] at h
    obtain ⟨h1, h2⟩ := Prod.mk.inj (Option.some.inj h)
    subst h1
    subst h2
    exact ⟨by simp, hu⟩
  | cons c rest ih =>
    simp only [runCalls] at h
    cases hc : calc_payments c.2.1 c.2.2 u mapping mu c.1 with
    | none => rw [hc] at h; exact Option.noConfusion h
    | some st =>
      rw [hc, Option.some_bind] at h
      cases hr : runCalls mapping mu rest st.2.2 with
      | none => rw [hr] at h; exact Option.noConfusion h
      | some pr =>
        rw [hr, Option.some_bind] at h
        obtain ⟨h1, h2⟩ := Prod.mk.inj (Option.some.inj h)
        subst h1
        subst h2
        obtain ⟨hts, hfrom, hlc, hyc, hoc, hbc, hxc⟩ :=
          calc_payments_spec c.2.1 c.2.2 u mapping mu c.1 st.1 st.2.1 st.2.2 hc
        have hu1 : ∀ y, uget st.2.2 (Sum.inr (y, t)) ≤ 1 := by
          intro y
          by_cases hy : y = c.1
          · subst hy; exact hxc t ht (hu c.1)
          · rw [hoc y t hy]; exact hu y
        obtain ⟨ih1, ih2⟩ := ih st.2.2 pr.1 pr.2 hr hu1
        refine ⟨?_, ih2⟩
        intro e he
        rcases List.mem_cons.mp he with he | he
        · subst he
          have hcount := hyc t
          have hbound := hxc t ht (hu c.1)
          dsimp only at hcount hbound ⊢
          omega
        · exact ih1 e he

theorem runYears_eq_runCalls (amounts : List (String × Int))
    (mapping : List (String × List Rule)) (mu : List (String × Nat))
    (yrs : List (Nat × List String)) (u : UsageCounter) :
    runYears amounts mapping mu yrs u =
      runCalls mapping mu (yrs.map fun p => (p.1, p.2, amounts)) u := by
  induction yrs generalizing u with
  | nil => rfl
  | cons ye rest ih =>
    simp only [runYears, runCalls, List.map_cons]
    cases calc_payments ye.2 amounts u mapping mu ye.1 with
    | none => rfl
    | some st =>
      simp only [Option.some_bind]
      rw [ih]

theorem grand_total_eq_sum (out : List (Nat × Int × List LineItem)) :
    grand_total out = (out.map fun e => e.2.1).sum := by
  induction out with
  | nil => rfl
  | cons e rest ih => simp [grand_total, ih]

theorem sum_map_congr {α : Type} (l : List α) (f g : α → Int)
    (h : ∀ e ∈ l, f e = g e) : (l.map f).sum = (l.map g).sum := by
  induction l with
  | nil => rfl
  | cons e rest ih =>
    simp only [List.map_cons, List.sum_cons]
    rw [h e (List.mem_cons_self _ _), ih (fun e he => h e (List.mem_cons_of_mem _ he))]

/-- Claim C1: cap monotonicity.  For every clause `t` whose lifetime cap in
the `MAX_USAGE` catalog is `k`, and for every sequence of `calc_payments`
calls (any years in increasing order, any event lists, any subscribed
amounts) starting from an empty `usage_counter`, at most `k` line items
are emitted for `t` in total, and the final lifetime count of `t` never
exceeds `k`. -/
theorem cap_monotonicity (mapping : List (String × List Rule)) (mu : List (String × Nat))
    (t : String) (k : Nat) (hk : alookup mu t = some k)
    (calls : List (Nat × List String × List (String × Int)))
    (_hinc : List.Chain' (fun a b => a.1 < b.1) calls)
    (out : List (Nat × Int × List LineItem)) (cf : UsageCounter)
    (h : runCalls mapping mu calls [] = some (out, cf)) :
    (out.map fun e => countClause t e.2.2).sum ≤ k ∧ uget cf (Sum.inl t) ≤ k := by
  obtain ⟨_, h2, h3⟩ := runCalls_spec mapping mu calls [] out cf h
  have hb : uget cf (Sum.inl t) ≤ k := h3 t k hk (Nat.zero_le k)
  have hcount := h2 t
  simp only [uget] at hcount
  exact ⟨by omega, hb⟩

theorem cap_monotonicity_w :
    ([((1 : Nat), (1000 : Int), [(("암직접치료보장" : String), (1000 : Int))])].map
        fun e => countClause "암직접치료보장" e.2.2).sum ≤ 10 ∧
      uget [(Sum.inl "암직접치료보장", 1), (Sum.inr (1, "암직접치료보장"), 1)]
        (Sum.inl "암직접치료보장") ≤ 10 :=
  cap_monotonicity MAPPING_SAMSUNG MAX_USAGE_SAMSUNG "암직접치료보장" 10 (by decide)
    [(1, ["수술"], [("암직접치료보장", 1000)])] (by simp)
    [(1, 1000, [("암직접치료보장", 1000)])]
    [(Sum.inl "암직접치료보장", 1), (Sum.inr (1, "암직접치료보장"), 1)] (by decide)

/-- Claim C2: year-exclusivity.  For each clause `t` in the year-exclusive
set (exactly `비급여 암 주요치료비 II`, `암직접치료보장`,
`상급종합병원 암직접치료보장`), any run of the per-year driver loop from an
empty counter emits at most one line item for `t` within each year
(regardless of how many triggering events, including duplicates, the
year's event list contains), and every `(year, t)` counter stays `≤ 1`. -/
theorem year_exclusivity (amounts : List (String × Int))
    (mapping : List (String × List Rule)) (mu : List (String × Nat)) (t : String)
    (ht : t ∈ YEAR_EXCLUSIVE) (yrs : List (Nat × List String))
    (out : List (Nat × Int × List LineItem)) (cf : UsageCounter)
    (h : runYears amounts mapping mu yrs [] = some (out, cf)) :
    (∀ e ∈ out, countClause t e.2.2 ≤ 1) ∧ (∀ y, uget cf (Sum.inr (y, t)) ≤ 1) := by
  rw [runYears_eq_runCalls] at h
  exact runCalls_yearly mapping mu _ [] out cf h t ht (fun _ => Nat.zero_le 1)

theorem year_exclusivity_w :
    (∀ e ∈ [((1 : Nat), (1000 : Int), [(("암직접치료보장" : String), (1000 : Int))])],
      countClause "암직접치료보장" e.2.2 ≤ 1) ∧
    (∀ y, uget [(Sum.inl "암직접치료보장", 1), (Sum.inr (1, "암직접치료보장"), 1)]
      (Sum.inr (y, "암직접치료보장")) ≤ 1) :=
  year_exclusivity [("암직접치료보장", 1000)] MAPPING_SAMSUNG MAX_USAGE_SAMSUNG
    "암직접치료보장" (by decide) [(1, ["수술", "방사선"])]
    [(1, 1000, [("암직접치료보장", 1000)])]
    [(Sum.inl "암직접치료보장", 1), (Sum.inr (1, "암직접치료보장"), 1)] (by decide)

/-- Claim C3: amount formula and positivity.  Every line item `(t, a)`
emitted by `calc_payments` has `a = round(subscribedAmount(t) * cnt * rate)`
(with Python round semantics, i.e. `ruleAmt`) for some triple
`(t, cnt, rate)` of the rule table, and `a > 0`; in particular a clause
whose subscribed amount is `0` (or missing) never produces a line item. -/
theorem amount_formula (events : List String) (amounts : List (String × Int))
    (u : UsageCounter) (mapping : List (String × List Rule)) (mu : List (String × Nat))
    (yr : Nat) (tot : Int) (dets : List LineItem) (u' : UsageCounter)
    (h : calc_payments events amounts u mapping mu yr = some (tot, dets, u')) :
    ∀ it ∈ dets, 0 < it.2 ∧ (alookup amounts it.1).getD 0 ≠ 0 ∧
      ∃ ev rules cnt rate, alookup mapping ev = some rules ∧
        (it.1, cnt, rate) ∈ rules ∧ it.2 = ruleAmt amounts it.1 cnt rate := by
  intro it hit
  obtain ⟨hpos, ev, rules, cnt, rate, hl, hr, hamt⟩ :=
    (calc_payments_spec events amounts u mapping mu yr tot dets u' h).2.1 it hit
  refine ⟨hpos, ?_, ev, rules, cnt, rate, hl, hr, hamt⟩
  intro h0
  rw [hamt, ruleAmt_of_getD_zero amounts it.1 cnt rate h0] at hpos
  exact lt_irrefl 0 hpos

theorem amount_formula_w :
    (0 : Int) < 1000 ∧
    (alookup [("암직접치료보장", (1000 : Int))] "암직접치료보장").getD 0 ≠ 0 ∧
    ∃ ev rules cnt rate, alookup MAPPING_SAMSUNG ev = some rules ∧
      (("암직접치료보장" : String), cnt, rate) ∈ rules ∧
      (1000 : Int) = ruleAmt [("암직접치료보장", 1000)] "암직접치료보장" cnt rate :=
  amount_formula ["수술"] [("암직접치료보장", 1000)] [] MAPPING_SAMSUNG MAX_USAGE_SAMSUNG
    1 1000 [("암직접치료보장", 1000)]
    [(Sum.inl "암직접치료보장", 1), (Sum.inr (1, "암직접치료보장"), 1)] (by decide)
    ("암직접치료보장", 1000) (List.mem_singleton.mpr rfl)

/-- Claim C4: totals re-aggregation.  In every successful run of the
per-year driver loop, each year's returned total equals the sum of that
year's line-item amounts, and the grand total accumulated over the years
equals the sum of the per-year totals, hence also the sum of all
emitted line-item amounts. -/
theorem totals_reaggregation (amounts : List (String × Int))
    (mapping : List (String × List Rule)) (mu : List (String × Nat))
    (yrs : List (Nat × List String)) (u : UsageCounter)
    (out : List (Nat × Int × List LineItem)) (cf : UsageCounter)
    (h : runYears amounts mapping mu yrs u = some (out, cf)) :
    (∀ e ∈ out, e.2.1 = sumAmts e.2.2) ∧
    grand_total out = (out.map fun e => e.2.1).sum ∧
    grand_total out = (out.map fun e => sumAmts e.2.2).sum := by
  rw [runYears_eq_runCalls] at h
  obtain ⟨h1, -, -⟩ := runCalls_spec mapping mu _ u out cf h
  refine ⟨h1, grand_total_eq_sum out, ?_⟩
  rw [grand_total_eq_sum out]
  exact sum_map_congr out _ _ h1

theorem totals_reaggregation_w :
    (∀ e ∈ [((1 : Nat), (1000 : Int), [(("암직접치료보장" : String), (1000 : Int))])],
      e.2.1 = sumAmts e.2.2) ∧
    grand_total [(1, 1000, [("암직접치료보장", 1000)])] =
      ([((1 : Nat), (1000 : Int), [(("암직접치료보장" : String), (1000 : Int))])].map
        fun e => e.2.1).sum ∧
    grand_total [(1, 1000, [("암직접치료보장", 1000)])] =
      ([((1 : Nat), (1000 : Int), [(("암직접치료보장" : String), (1000 : Int))])].map
        fun e => sumAmts e.2.2).sum :=
  totals_reaggregation [("암직접치료보장", 1000)] MAPPING_SAMSUNG MAX_USAGE_SAMSUNG
    [(1, ["수술"])] [] [(1, 1000, [("암직접치료보장", 1000)])]
    [(Sum.inl "암직접치료보장", 1), (Sum.inr (1, "암직접치료보장"), 1)] (by decide)

/-- Claim C5: no side effects on rejection, with year-exclusivity checked
before the lifetime cap.  If a triple `(t, cnt, rate)` is rejected
because `t` is year-exclusive with `(yr, t)` count already `≥ 1` (this
check fires first, for any cap catalog, even one missing `t`), or
because the lifetime count of `t` has reached its cap, then the loop
body returns the state unchanged: no line item, no addition to the
total, no counter change, and no error. -/
theorem rejection_no_side_effects (amounts : List (String × Int))
    (mu : List (String × Nat)) (yr : Nat) (st : PState) (t : String) (cnt : Nat)
    (rate : ℚ) :
    (t ∈ YEAR_EXCLUSIVE → 1 ≤ uget st.2.2 (Sum.inr (yr, t)) →
      step amounts mu yr st (t, cnt, rate) = some st) ∧
    (∀ mx, alookup mu t = some mx → mx ≤ uget st.2.2 (Sum.inl t) →
      step amounts mu yr st (t, cnt, rate) = some st) := by
  constructor
  · intro h1 h2
    unfold step
    rw [if_pos ⟨h1, h2⟩]
  · intro mx hmx hle
    unfold step
    by_cases h1 : t ∈ YEAR_EXCLUSIVE ∧ 1 ≤ uget st.2.2 (Sum.inr (yr, t))
    · rw [if_pos h1]
    · rw [if_neg h1, hmx, Option.some_bind, if_pos hle]

theorem rejection_no_side_effects_w :
    step [("암직접치료보장", 1000)] [] 1
        ((0 : Int), ([] : List LineItem), [(Sum.inr (1, "암직접치료보장"), 1)])
        ("암직접치료보장", 1, 1) =
      some ((0 : Int), ([] : List LineItem), [(Sum.inr (1, "암직접치료보장"), 1)]) ∧
    step [("항암방사선치료특약", 1000)] MAX_USAGE_SAMSUNG 1
        ((0 : Int), ([] : List LineItem), [(Sum.inl "항암방사선치료특약", 1)])
        ("항암방사선치료특약", 1, 1) =
      some ((0 : Int), ([] : List LineItem), [(Sum.inl "항암방사선치료특약", 1)]) :=
  ⟨(rejection_no_side_effects [("암직접치료보장", 1000)] [] 1
      (0, [], [(Sum.inr (1, "암직접치료보장"), 1)]) "암직접치료보장" 1 1).1
      (by decide) (by decide),
   (rejection_no_side_effects [("항암방사선치료특약", 1000)] MAX_USAGE_SAMSUNG 1
      (0, [], [(Sum.inl "항암방사선치료특약", 1)]) "항암방사선치료특약" 1 1).2
      1 (by decide) (by decide)⟩

/-- Claim C10: zero-amount triggerings consume no uses.  If the computed
amount of a triple `(t, cnt, rate)` is `≤ 0` (for example because the
clause's subscribed amount is `0` or negative), the loop body of
`calc_payments` leaves the whole state — total, details and both usage
counters — unchanged. -/
theorem zero_amount_no_use (amounts : List (String × Int)) (mu : List (String × Nat))
    (yr : Nat) (st st' : PState) (t : String) (cnt : Nat) (rate : ℚ)
    (hamt : ruleAmt amounts t cnt rate ≤ 0)
    (h : step amounts mu yr st (t, cnt, rate) = some st') : st' = st := by
  rcases step_elim amounts mu yr st (t, cnt, rate) st' h with
    heq | ⟨mx, hmx, hlt, hYE, hpos, heq⟩
  · exact heq
  · have hpos1 : 0 < ruleAmt amounts t cnt rate := hpos
    omega

theorem zero_amount_no_use_w :
    (((0 : Int), ([] : List LineItem), ([] : UsageCounter)) : PState) =
      (((0 : Int), ([] : List LineItem), ([] : UsageCounter)) : PState) :=
  zero_amount_no_use [] [("X", 5)] 1 (0, [], []) (0, [], []) "X" 1 1
    (by decide) (by decide)

/-- Claim C6: scenarios A and B.  With Samsung subscribed amounts where
`암직접치료보장` is 1000 (and the other clauses 0), the event `수술` in
year 1 yields the single line item `(암직접치료보장, 1000)` and lifetime
count 1; if `암주요치료보장` is also nonzero it yields
`(암주요치료보장, 1000)` as well; and repeating `수술` in years 1..11
pays `암직접치료보장` in years 1..10 only — year 11 emits nothing, the
lifetime cap 10 having been reached at year 10. -/
theorem scenario_a_b :
    ((calc_payments ["수술"] [("암직접치료보장", 1000)] [] MAPPING_SAMSUNG
        MAX_USAGE_SAMSUNG 1).map
        (fun st => (st.1, st.2.1, uget st.2.2 (Sum.inl "암직접치료보장"))) =
      some (1000, [("암직접치료보장", 1000)], 1)) ∧
    ((calc_payments ["수술"] [("암주요치료보장", 1000), ("암직접치료보장", 1000)] []
        MAPPING_SAMSUNG MAX_USAGE_SAMSUNG 1).map (fun st => st.2.1) =
      some [("암주요치료보장", 1000), ("암직접치료보장", 1000)]) ∧
    ((runYears [("암직접치료보장", 1000)] MAPPING_SAMSUNG MAX_USAGE_SAMSUNG
        [(1, ["수술"]), (2, ["수술"]), (3, ["수술"]), (4, ["수술"]), (5, ["수술"]),
         (6, ["수술"]), (7, ["수술"]), (8, ["수술"]), (9, ["수술"]), (10, ["수술"]),
         (11, ["수술"])] []).map (fun p => p.1) =
      some [(1, 1000, [("암직접치료보장", 1000)]), (2, 1000, [("암직접치료보장", 1000)]),
        (3, 1000, [("암직접치료보장", 1000)]), (4, 1000, [("암직접치료보장", 1000)]),
        (5, 1000, [("암직접치료보장", 1000)]), (6, 1000, [("암직접치료보장", 1000)]),
        (7, 1000, [("암직접치료보장", 1000)]), (8, 1000, [("암직접치료보장", 1000)]),
        (9, 1000, [("암직접치료보장", 1000)]), (10, 1000, [("암직접치료보장", 1000)]),
        (11, 0, [])]) :=
  ⟨by decide, by decide, by decide⟩

/-- Claim C9 counterexample: with the Samsung premium clause
`프리미엄암직접치료보장` subscribed at 200 and the event `면역(비급여)`
in year 1, the code emits exactly one line item, `(프리미엄암직접치료보장,
800)` (multiplier 4), and no line item of amount 200 at all — not four
distinct premium line items of 200 each as the claim states. -/
theorem premium_compounding_cex :
    ((calc_payments ["면역(비급여)"] [("프리미엄암직접치료보장", 200)] [] MAPPING_SAMSUNG
        MAX_USAGE_SAMSUNG 1).map (fun st => st.2.1) =
      some [("프리미엄암직접치료보장", 800)]) ∧
    ((calc_payments ["면역(비급여)"] [("프리미엄암직접치료보장", 200)] [] MAPPING_SAMSUNG
        MAX_USAGE_SAMSUNG 1).map
        (fun st => (st.2.1.filter (fun it => it.2 = (200 : Int))).length) = some 0) :=
  ⟨by decide, by decide⟩

/-- Claim C9 amended: with the Samsung premium clause subscribed at 200,
the event `면역(비급여)` in year 1 emits a single premium line item
`(프리미엄암직접치료보장, 800)` — the 4× compounding is realized through
the multiplier of one rule triple, not through four separate line items —
and it contributes 800 to the year total. -/
theorem premium_compounding_amended :
    (calc_payments ["면역(비급여)"] [("프리미엄암직접치료보장", 200)] [] MAPPING_SAMSUNG
        MAX_USAGE_SAMSUNG 1).map (fun st => (st.1, st.2.1)) =
      some (800, [("프리미엄암직접치료보장", 800)]) := by decide

/-- Claim C7 counterexample: under the KB `중환자실` rule (multiplier 1,
rate 0.5) with odd subscribed amount 5, the emitted amount is 2 — Python
`round` rounds the tie 2.5 half-to-even — whereas round-half-up would
give `(5 + 1) / 2 = 3`. -/
theorem rounding_half_up_cex :
    ((calc_payments ["중환자실"] [("암(유사암 제외) 주요치료비", 5)] [] MAPPING_KB
        MAX_USAGE_KB 1).map (fun st => st.2.1) =
      some [("암(유사암 제외) 주요치료비", 2)]) ∧
    (2 : ℤ) ≠ (5 + 1) / 2 :=
  ⟨by decide, by decide⟩

/-- Claim C8 counterexample: a rule table whose triple references a clause
absent from the usage-cap catalog makes `calc_payments` raise `KeyError`
(modelled as `none`) — even though the clause has a subscribed amount —
rather than skipping the clause. -/
theorem unknown_clause_cex :
    calc_payments ["e"] [("X", 100)] [] [("e", [("X", 1, 1)])] [] 1 = none := by decide

theorem pyRound_eq_floor (x : ℤ) (d : ℕ) (hd : 0 < d) :
    pyRound x (d : ℤ) =
      if (x : ℚ) / d - ⌊(x : ℚ) / d⌋ < 1 / 2 then ⌊(x : ℚ) / d⌋
      else if (1 : ℚ) / 2 < (x : ℚ) / d - ⌊(x : ℚ) / d⌋ then ⌊(x : ℚ) / d⌋ + 1
      else if ⌊(x : ℚ) / d⌋ % 2 = 0 then ⌊(x : ℚ) / d⌋ else ⌊(x : ℚ) / d⌋ + 1 := by
  have hfl : ⌊(x : ℚ) / (d : ℚ)⌋ = x / (d : ℤ) := Rat.floor_intCast_div_natCast x d
  have hdQ : (0 : ℚ) < (d : ℚ) := by exact_mod_cast hd
  have hfrac : (x : ℚ) / d - (⌊(x : ℚ) / d⌋ : ℚ) =
      ((x - x / (d : ℤ) * d : ℤ) : ℚ) / d := by
    rw [hfl]
    push_cast
    field_simp
    ring
  have h1 : ((x : ℚ) / d - ⌊(x : ℚ) / d⌋ < 1 / 2) ↔
      (2 * (x - x / (d : ℤ) * d) < (d : ℤ)) := by
    rw [hfrac, div_lt_div_iff₀ hdQ (by norm_num : (0 : ℚ) < 2),
      show ((x - x / (d : ℤ) * d : ℤ) : ℚ) * 2 =
        ((2 * (x - x / (d : ℤ) * d) : ℤ) : ℚ) by push_cast; ring,
      show (1 : ℚ) * (d : ℚ) = (((d : ℕ) : ℤ) : ℚ) by push_cast; ring]
    exact Int.cast_lt
  have h2 : ((1 : ℚ) / 2 < (x : ℚ) / d - ⌊(x : ℚ) / d⌋) ↔
      ((d : ℤ) < 2 * (x - x / (d : ℤ) * d)) := by
    rw [hfrac, div_lt_div_iff₀ (by norm_num : (0 : ℚ) < 2) hdQ,
      show ((x - x / (d : ℤ) * d : ℤ) : ℚ) * 2 =
        ((2 * (x - x / (d : ℤ) * d) : ℤ) : ℚ) by push_cast; ring,
      show (1 : ℚ) * (d : ℚ) = (((d : ℕ) : ℤ) : ℚ) by push_cast; ring]
    exact Int.cast_lt
  simp only [pyRound]
  by_cases b1 : 2 * (x - x / (d : ℤ) * d) < (d : ℤ)
  · rw [if_pos b1, if_pos (h1.mpr b1), hfl]
  · rw [if_neg b1, if_neg (fun hc => b1 (h1.mp hc))]
    by_cases b2 : (d : ℤ) < 2 * (x - x / (d : ℤ) * d)
    · rw [if_pos b2, if_pos (h2.mpr b2), hfl]
    · rw [if_neg b2, if_neg (fun hc => b2 (h2.mp hc))]
      by_cases b3 : x / (d : ℤ) % 2 = 0
      · rw [if_pos b3, if_pos (by rw [hfl]; exact b3), hfl]
      · rw [if_neg b3, if_neg (fun hc => b3 (by rw [hfl] at hc; exact hc)), hfl]

theorem calc_payments_single_rule (ev : String) (amounts : List (String × Int))
    (u : UsageCounter) (mapping : List (String × List Rule)) (mu : List (String × Nat))
    (yr : Nat) (t : String) (cnt : Nat) (rate : ℚ) (mx : Nat)
    (hev : ev ≠ "") (hl : alookup mapping ev = some [(t, cnt, rate)])
    (hYE : t ∉ YEAR_EXCLUSIVE) (hmx : alookup mu t = some mx)
    (hlt : uget u (Sum.inl t) < mx) (hpos : 0 < ruleAmt amounts t cnt rate) :
    calc_payments [ev] amounts u mapping mu yr =
      some (ruleAmt amounts t cnt rate, [(t, ruleAmt amounts t cnt rate)],
        payOne u yr t) := by
  have hstep : step amounts mu yr (0, [], u) (t, cnt, rate) =
      some (ruleAmt amounts t cnt rate, [(t, ruleAmt amounts t cnt rate)],
        payOne u yr t) := by
    unfold step
    rw [if_neg (fun hc => hYE hc.1), hmx, Option.some_bind,
      if_neg (Nat.not_le.mpr hlt), if_pos hpos]
    simp
  simp only [calc_payments, payEvents, payEvent, if_pos hev, hl, payRules]
  rw [hstep, Option.some_bind, Option.some_bind]

/-- Claim C7 amended: the computed amount uses Python round-half-to-even,
not round-half-up; under the KB `중환자실` rule (multiplier 1, rate 0.5)
an odd subscribed amount `n ≥ 3` yields the single line item whose amount
is `n / 2` rounded to the nearest even integer (`halfEven n`), which for
`n = 5` is 2 rather than the half-up value 3 (and `n = 1` yields no line
item at all, since the amount rounds to 0). -/
theorem rounding_half_even (n : ℤ) (hodd : Odd n) (h3 : 3 ≤ n) :
    (calc_payments ["중환자실"] [("암(유사암 제외) 주요치료비", n)] [] MAPPING_KB
        MAX_USAGE_KB 1).map (fun st => (st.1, st.2.1)) =
      some (halfEven n, [("암(유사암 제외) 주요치료비", halfEven n)]) := by
  obtain ⟨m, hm⟩ := hodd
  have ha : alookup [("암(유사암 제외) 주요치료비", n)] "암(유사암 제외) 주요치료비" =
      some n := by simp [alookup]
  have hnum : (mkRat 1 2).num = 1 := by decide
  have hden : (mkRat 1 2).den = 2 := by decide
  have hamt : ruleAmt [("암(유사암 제외) 주요치료비", n)] "암(유사암 제외) 주요치료비" 1
      (mkRat 1 2) = pyRound n 2 := by
    simp [ruleAmt, ha, hnum, hden]
  have hval : pyRound n 2 = halfEven n := by
    simp only [pyRound, halfEven]
    split_ifs <;> omega
  have hpos : 0 < ruleAmt [("암(유사암 제외) 주요치료비", n)] "암(유사암 제외) 주요치료비" 1
      (mkRat 1 2) := by
    rw [hamt, hval]
    simp only [halfEven]
    split_ifs <;> omega
  rw [calc_payments_single_rule "중환자실" [("암(유사암 제외) 주요치료비", n)] []
    MAPPING_KB MAX_USAGE_KB 1 "암(유사암 제외) 주요치료비" 1 (mkRat 1 2) 50
    (by decide) (by decide) (by decide) (by decide) (by decide) hpos]
  simp [hamt, hval]

theorem rounding_half_even_w :
    (calc_payments ["중환자실"] [("암(유사암 제외) 주요치료비", 5)] [] MAPPING_KB
        MAX_USAGE_KB 1).map (fun st => (st.1, st.2.1)) =
      some (2, [("암(유사암 제외) 주요치료비", 2)]) :=
  (rounding_half_even 5 ⟨2, by norm_num⟩ (by norm_num)).trans (by decide)

theorem step_isSome (amounts : List (String × Int)) (mu : List (String × Nat))
    (yr : Nat) (st : PState) (r : Rule) (h : (alookup mu r.1).isSome = true) :
    ∃ st', step amounts mu yr st r = some st' := by
  unfold step
  by_cases h1 : r.1 ∈ YEAR_EXCLUSIVE ∧ 1 ≤ uget st.2.2 (Sum.inr (yr, r.1))
  · exact ⟨st, if_pos h1⟩
  · rw [if_neg h1]
    obtain ⟨mx, hmx⟩ := Option.isSome_iff_exists.mp h
    rw [hmx, Option.some_bind]
    by_cases h2 : mx ≤ uget st.2.2 (Sum.inl r.1)
    · exact ⟨st, if_pos h2⟩
    · rw [if_neg h2]
      by_cases h3 : 0 < ruleAmt amounts r.1 r.2.1 r.2.2
      · exact ⟨_, if_pos h3⟩
      · exact ⟨st, if_neg h3⟩

theorem payRules_isSome (amounts : List (String × Int)) (mu : List (String × Nat))
    (yr : Nat) (rs : List Rule) (st : PState)
    (hcov : ∀ r ∈ rs, (alookup mu r.1).isSome = true) :
    ∃ st', payRules amounts mu yr rs st = some st' := by
  induction rs generalizing st with
  | nil => exact ⟨st, rfl⟩
  | cons r rs ih =>
    obtain ⟨st1, h1⟩ := step_isSome amounts mu yr st r (hcov r (List.mem_cons_self _ _))
    obtain ⟨st', h2⟩ := ih st1 (fun r hr => hcov r (List.mem_cons_of_mem _ hr))
    refine ⟨st', ?_⟩
    simp only [payRules]
    rw [h1, Option.some_bind]
    exact h2

theorem payEvent_isSome (amounts : List (String × Int)) (mu : List (String × Nat))
    (mapping : List (String × List Rule)) (yr : Nat) (st : PState) (ev : String)
    (hcov : ∀ p ∈ mapping, ∀ r ∈ p.2, (alookup mu r.1).isSome = true) :
    ∃ st', payEvent amounts mu mapping yr st ev = some st' := by
  unfold payEvent
  by_cases hev : ev ≠ ""
  · rw [if_pos hev]
    cases hl : alookup mapping ev with
    | none => exact ⟨st, rfl⟩
    | some rules =>
      exact payRules_isSome amounts mu yr rules st
        (fun r hr => hcov (ev, rules) (alookup_mem mapping ev rules hl) r hr)
  · rw [if_neg hev]
    exact ⟨st, rfl⟩

theorem payEvents_isSome (amounts : List (String × Int)) (mu : List (String × Nat))
    (mapping : List (String × List Rule)) (yr : Nat) (evs : List String) (st : PState)
    (hcov : ∀ p ∈ mapping, ∀ r ∈ p.2, (alookup mu r.1).isSome = true) :
    ∃ st', payEvents amounts mu mapping yr evs st = some st' := by
  induction evs generalizing st with
  | nil => exact ⟨st, rfl⟩
  | cons ev evs ih =>
    obtain ⟨st1, h1⟩ := payEvent_isSome amounts mu mapping yr st ev hcov
    obtain ⟨st', h2⟩ := ih st1
    refine ⟨st', ?_⟩
    simp only [payEvents]
    rw [h1, Option.some_bind]
    exact h2

/-- Claim C8 amended: a clause missing from the subscribed-amount map is
treated as zero subscribed amount and emits nothing (so it never appears
among the line items); but `calc_payments` is error-free only when every
clause referenced by the rule table is present in the usage-cap catalog —
a clause missing from `MAX_USAGE` raises `KeyError` when its triple is
evaluated (see the counterexample). -/
theorem unknown_clause_semantics (mapping : List (String × List Rule))
    (mu : List (String × Nat))
    (hcov : ∀ p ∈ mapping, ∀ r ∈ p.2, (alookup mu r.1).isSome = true)
    (events : List String) (amounts : List (String × Int)) (u : UsageCounter) (yr : Nat) :
    (calc_payments events amounts u mapping mu yr).isSome = true ∧
    (∀ tot dets u', calc_payments events amounts u mapping mu yr = some (tot, dets, u') →
      ∀ it ∈ dets, (alookup amounts it.1).isSome = true) := by
  constructor
  · obtain ⟨st', h⟩ := payEvents_isSome amounts mu mapping yr events (0, [], u) hcov
    unfold calc_payments
    rw [h]
    rfl
  · intro tot dets u' h it hit
    obtain ⟨hpos, ev, rules, cnt, rate, hl, hr, hamt⟩ :=
      (calc_payments_spec events amounts u mapping mu yr tot dets u' h).2.1 it hit
    cases hlk : alookup amounts it.1 with
    | some v => rfl
    | none =>
      exfalso
      have h0 : (alookup amounts it.1).getD 0 = 0 := by rw [hlk]; rfl
      rw [hamt, ruleAmt_of_getD_zero amounts it.1 cnt rate h0] at hpos
      exact lt_irrefl 0 hpos

theorem unknown_clause_semantics_w :
    ((calc_payments ["수술"] [("암(유사암 제외) 주요치료비", 100)] [] MAPPING_KB
        MAX_USAGE_KB 1).isSome = true) ∧
    (∀ tot dets u', calc_payments ["수술"] [("암(유사암 제외) 주요치료비", 100)] []
        MAPPING_KB MAX_USAGE_KB 1 = some (tot, dets, u') →
      ∀ it ∈ dets,
        (alookup [("암(유사암 제외) 주요치료비", (100 : Int))] it.1).isSome = true) :=
  unknown_clause_semantics MAPPING_KB MAX_USAGE_KB (by decide) ["수술"]
    [("암(유사암 제외) 주요치료비", 100)] [] 1

end CancerCalc
